import Mathlib

/-!
Verification of the avrocado interactive schema tool against its
natural-language specification.  The Go source is embedded shallowly:
pure functions become Lean functions, the Bubbletea `Model.Update`
state machine becomes an explicit state-transition function, machine
integers become `Nat`/`Int` with explicit wrap where the code converts,
and fallible code returns `Except`.
-/

namespace Avrocado

/-! ## JSON values

Go's template generator works on the result of `json.Unmarshal` into
`interface{}`: strings, numbers (`float64`), booleans, `nil`, `[]interface{}`
and `map[string]interface{}`.  We embed such values as the `Json` type.
An object is carried as an association list; Go maps are unordered, and
`encoding/json` marshals map keys in sorted order, which is modelled by
the `marshalJson` function below. -/

inductive Json where
  | null : Json
  | bool (b : Bool) : Json
  | num (q : ℚ) : Json
  | str (s : String) : Json
  | arr (xs : List Json) : Json
  | obj (kvs : List (String × Json)) : Json

mutual

def Json.decEq : (a b : Json) → Decidable (a = b)
  | .null, .null => isTrue rfl
  | .bool a, .bool b =>
    if h : a = b then isTrue (by rw [h])
    else isFalse (by intro hh; injection hh; exact h (by assumption))
  | .num a, .num b =>
    if h : a = b then isTrue (by rw [h])
    else isFalse (by intro hh; injection hh; exact h (by assumption))
  | .str a, .str b =>
    if h : a = b then isTrue (by rw [h])
    else isFalse (by intro hh; injection hh; exact h (by assumption))
  | .arr xs, .arr ys =>
    match Json.decEqList xs ys with
    | isTrue h => isTrue (by rw [h])
    | isFalse h => isFalse (by intro hh; injection hh; exact h (by assumption))
  | .obj kvs, .obj lvs =>
    match Json.decEqObj kvs lvs with
    | isTrue h => isTrue (by rw [h])
    | isFalse h => isFalse (by intro hh; injection hh; exact h (by assumption))
  | .null, .bool _ | .null, .num _ | .null, .str _ | .null, .arr _ | .null, .obj _ =>
    isFalse (by intro h; exact Json.noConfusion h)
  | .bool _, .null | .bool _, .num _ | .bool _, .str _ | .bool _, .arr _ | .bool _, .obj _ =>
    isFalse (by intro h; exact Json.noConfusion h)
  | .num _, .null | .num _, .bool _ | .num _, .str _ | .num _, .arr _ | .num _, .obj _ =>
    isFalse (by intro h; exact Json.noConfusion h)
  | .str _, .null | .str _, .bool _ | .str _, .num _ | .str _, .arr _ | .str _, .obj _ =>
    isFalse (by intro h; exact Json.noConfusion h)
  | .arr _, .null | .arr _, .bool _ | .arr _, .num _ | .arr _, .str _ | .arr _, .obj _ =>
    isFalse (by intro h; exact Json.noConfusion h)
  | .obj _, .null | .obj _, .bool _ | .obj _, .num _ | .obj _, .str _ | .obj _, .arr _ =>
    isFalse (by intro h; exact Json.noConfusion h)
termination_by a b => sizeOf a
decreasing_by
  all_goals simp_wf
  all_goals omega

def Json.decEqList : (xs ys : List Json) → Decidable (xs = ys)
  | [], [] => isTrue rfl
  | [], _ :: _ => isFalse (by intro h; exact List.noConfusion h)
  | _ :: _, [] => isFalse (by intro h; exact List.noConfusion h)
  | x :: xs, y :: ys =>
    match Json.decEq x y with
    | isTrue h1 =>
      match Json.decEqList xs ys with
      | isTrue h2 => isTrue (by rw [h1, h2])
      | isFalse h2 => isFalse (by intro hh; injection hh; exact h2 (by assumption))
    | isFalse h1 => isFalse (by intro hh; injection hh; exact h1 (by assumption))
termination_by xs _ => sizeOf xs
decreasing_by
  all_goals simp_wf
  all_goals omega

def Json.decEqObj : (xs ys : List (String × Json)) → Decidable (xs = ys)
  | [], [] => isTrue rfl
  | [], _ :: _ => isFalse (by intro h; exact List.noConfusion h)
  | _ :: _, [] => isFalse (by intro h; exact List.noConfusion h)
  | (k, v) :: xs, (k', v') :: ys =>
    if hk : k = k' then
      match Json.decEq v v' with
      | isTrue h1 =>
        match Json.decEqObj xs ys with
        | isTrue h2 => isTrue (by rw [hk, h1, h2])
        | isFalse h2 => isFalse (by intro hh; injection hh; exact h2 (by assumption))
      | isFalse h1 =>
        isFalse (by
          intro hh
          injection hh with hp ht
          exact h1 (congrArg Prod.snd hp))
    else
      isFalse (by
        intro hh
        injection hh with hp ht
        exact hk (congrArg Prod.fst hp))
termination_by xs _ => sizeOf xs
decreasing_by
  all_goals simp_wf
  all_goals omega

end

instance : DecidableEq Json := Json.decEq

/-- Go map lookup `m[k]` on an association list (keys assumed unique,
as produced by `json.Unmarshal`). -/
def lookupJ : List (String × Json) → String → Option Json
  | [], _ => none
  | (k', v) :: rest, k => if k' = k then some v else lookupJ rest k

/-- Go map assignment `m[k] = v`: replace an existing binding, else append. -/
def mapInsert : List (String × Json) → String → Json → List (String × Json)
  | [], k, v => [(k, v)]
  | (k', v') :: rest, k, v =>
    if k' = k then (k, v) :: rest else (k', v') :: mapInsert rest k v

theorem lookupJ_sizeOf {kvs : List (String × Json)} {k : String} {v : Json}
    (h : lookupJ kvs k = some v) : sizeOf v < sizeOf kvs := by
  induction kvs with
  | nil => simp [lookupJ] at h
  | cons p rest ih =>
    obtain ⟨k', v'⟩ := p
    by_cases hk : k' = k
    · simp [lookupJ, hk] at h
      subst h
      simp
      omega
    · simp [lookupJ, hk] at h
      have := ih h
      simp
      omega

/-! ## Schema Template Generator (internal/avro/template.go) -/

/-- `generatePrimitive` from template.go.  The Go function returns
`(interface{}, error)` and never fails; the final default branch is the
named-type-reference case, which yields the empty string placeholder.
Go produces `int 0` for int/long and `float64 0.0` for float/double;
both marshal to the JSON text `0`, embedded as `Json.num 0`. -/
def generatePrimitive (typeName : String) : Except String Json :=
  match typeName with
  | "null" => .ok .null
  | "boolean" => .ok (.bool false)
  | "int" => .ok (.num 0)
  | "long" => .ok (.num 0)
  | "float" => .ok (.num 0)
  | "double" => .ok (.num 0)
  | "bytes" => .ok (.str "")
  | "string" => .ok (.str "")
  | _ => .ok (.str "")

/-- `generateArray` from template.go: empty array. -/
def generateArray (_kvs : List (String × Json)) : Except String Json :=
  .ok (.arr [])

/-- `generateMap` from template.go: empty map. -/
def generateMap (_kvs : List (String × Json)) : Except String Json :=
  .ok (.obj [])

/-- `generateEnum` from template.go: the first declared symbol if it is a
string, otherwise (missing/empty/non-string symbols) an empty string. -/
def generateEnum (kvs : List (String × Json)) : Except String Json :=
  match lookupJ kvs "symbols" with
  | some (.arr (s :: _)) =>
    match s with
    | .str sym => .ok (.str sym)
    | _ => .ok (.str "")
  | _ => .ok (.str "")

/-- `generateFixed` from template.go: empty string placeholder. -/
def generateFixed (_kvs : List (String × Json)) : Except String Json :=
  .ok (.str "")

mutual

/-- `generateValue` from template.go: dispatch on the parsed schema node. -/
def generateValue : Json → Except String Json
  | .str s => generatePrimitive s
  | .arr ts => generateUnion ts
  | .obj kvs => generateComplex kvs
  | _ => .error "unexpected schema type"
termination_by s => 4 * sizeOf s + 3
decreasing_by
  all_goals simp_wf
  all_goals omega

/-- `generateUnion` from template.go: skip alternatives that are the string
`"null"`, recurse into the first other alternative; all-null gives null. -/
def generateUnion (types : List Json) : Except String Json :=
  match types with
  | [] => .ok .null
  | t :: rest =>
    if t = Json.str "null" then generateUnion rest
    else generateValue t
termination_by 4 * sizeOf types
decreasing_by
  all_goals simp_wf
  all_goals omega

/-- `generateComplex` from template.go: the `"type"` discriminator must be a
string; complex forms dispatch to the record/array/map/enum/fixed generators,
and any other name falls back to `generatePrimitive` (Go's `switch` on the
string is written as the equivalent comparison chain). -/
def generateComplex (kvs : List (String × Json)) : Except String Json :=
  match lookupJ kvs "type" with
  | some (.str schemaType) =>
    if schemaType = "record" then generateRecord kvs
    else if schemaType = "array" then generateArray kvs
    else if schemaType = "map" then generateMap kvs
    else if schemaType = "enum" then generateEnum kvs
    else if schemaType = "fixed" then generateFixed kvs
    else generatePrimitive schemaType
  | _ => .error "missing or invalid 'type' field"
termination_by 4 * sizeOf kvs + 2
decreasing_by
  all_goals simp_wf
  all_goals omega

/-- `generateRecord` from template.go: requires a `"fields"` list; the loop
body is `genFields`, which threads the Go `result` map. -/
def generateRecord (kvs : List (String × Json)) : Except String Json :=
  match h : lookupJ kvs "fields" with
  | some (.arr fields) => (genFields fields []).map Json.obj
  | _ => .error "record missing 'fields'"
termination_by 4 * sizeOf kvs + 1
decreasing_by
  all_goals simp_wf
  have := lookupJ_sizeOf h
  simp at this
  omega

/-- The field loop of `generateRecord`: fields that are not objects, lack a
string `"name"`, or lack a `"type"` are skipped; a declared `"default"` is
used verbatim, otherwise the field's type is generated recursively. -/
def genFields (fields : List Json) (result : List (String × Json)) :
    Except String (List (String × Json)) :=
  match fields with
  | [] => .ok result
  | f :: rest =>
    match f with
    | .obj fkvs =>
      match lookupJ fkvs "name" with
      | some (.str name) =>
        match hty : lookupJ fkvs "type" with
        | some fieldType =>
          match lookupJ fkvs "default" with
          | some defaultVal => genFields rest (mapInsert result name defaultVal)
          | none =>
            match generateValue fieldType with
            | .ok v => genFields rest (mapInsert result name v)
            | .error e => .error ("field " ++ name ++ ": " ++ e)
        | none => genFields rest result
      | _ => genFields rest result
    | _ => genFields rest result
termination_by 4 * sizeOf fields
decreasing_by
  all_goals simp_wf
  all_goals try omega
  have := lookupJ_sizeOf hty
  simp at this
  omega

end

theorem json_sizeOf_pos : ∀ j : Json, 1 ≤ sizeOf j := by
  intro j
  cases j <;> simp_arith

theorem generateValue_str (s : String) :
    generateValue (.str s) = generatePrimitive s := by rw [generateValue]

theorem generateValue_arr (ts : List Json) :
    generateValue (.arr ts) = generateUnion ts := by rw [generateValue]

theorem generateValue_obj (kvs : List (String × Json)) :
    generateValue (.obj kvs) = generateComplex kvs := by rw [generateValue]

/-! Unconditional unfolding lemmas for the record leaves (the definitional
equations carry the dependent match on the field lookups). -/

theorem generateRecord_fields {kvs : List (String × Json)} {fields : List Json}
    (h : lookupJ kvs "fields" = some (.arr fields)) :
    generateRecord kvs = (genFields fields []).map Json.obj := by
  rw [generateRecord.eq_def]
  split
  · rename_i fs heq
    rw [h] at heq
    injection heq with heq
    injection heq with heq
    rw [heq]
  · rename_i heq
    exact absurd h (heq fields)

theorem genFields_cons_default {fkvs : List (String × Json)} {rest : List Json}
    {result : List (String × Json)} {name : String} {ft d : Json}
    (hn : lookupJ fkvs "name" = some (.str name))
    (hty : lookupJ fkvs "type" = some ft)
    (hd : lookupJ fkvs "default" = some d) :
    genFields (.obj fkvs :: rest) result = genFields rest (mapInsert result name d) := by
  rw [genFields.eq_2, hn]
  simp only []
  split
  · rename_i ft2 heq
    rw [hty] at heq
    injection heq with heq
    subst heq
    rw [hd]
  · rename_i heq
    rw [hty] at heq
    exact Option.noConfusion heq

theorem genFields_cons_gen {fkvs : List (String × Json)} {rest : List Json}
    {result : List (String × Json)} {name : String} {ft : Json}
    (hn : lookupJ fkvs "name" = some (.str name))
    (hty : lookupJ fkvs "type" = some ft)
    (hd : lookupJ fkvs "default" = none) :
    genFields (.obj fkvs :: rest) result =
      match generateValue ft with
      | .ok v => genFields rest (mapInsert result name v)
      | .error e => .error ("field " ++ name ++ ": " ++ e) := by
  rw [genFields.eq_2, hn]
  simp only []
  split
  · rename_i ft2 heq
    rw [hty] at heq
    injection heq with heq
    subst heq
    rw [hd]
  · rename_i heq
    rw [hty] at heq
    exact Option.noConfusion heq

theorem genFields_cons_no_type {fkvs : List (String × Json)} {rest : List Json}
    {result : List (String × Json)} {name : String}
    (hn : lookupJ fkvs "name" = some (.str name))
    (hty : lookupJ fkvs "type" = none) :
    genFields (.obj fkvs :: rest) result = genFields rest result := by
  rw [genFields.eq_2, hn]
  simp only []
  split
  · rename_i ft2 heq
    rw [hty] at heq
    exact Option.noConfusion heq
  · rfl

theorem genFields_cons_no_name {fkvs : List (String × Json)} {rest : List Json}
    {result : List (String × Json)}
    (hn : ∀ s, lookupJ fkvs "name" ≠ some (.str s)) :
    genFields (.obj fkvs :: rest) result = genFields rest result := by
  rw [genFields.eq_2]
  split
  · rename_i name heq
    exact absurd heq (hn name)
  · rfl

/-! ### Fuel-indexed twin of the generator

`generateValueF` executes the same algorithm with an explicit step budget;
it is structurally recursive on the fuel, so it evaluates by `rfl`/`decide`.
`generateF_adequate` proves that fuel proportional to the schema size always
suffices and that the result is exactly `generateValue` — this is the
termination bound of the generator, and the basis for computing it on
concrete schemas. -/

mutual

def generateValueF : Nat → Json → Option (Except String Json)
  | 0, _ => none
  | fuel + 1, s =>
    match s with
    | .str t => some (generatePrimitive t)
    | .arr ts => generateUnionF fuel ts
    | .obj kvs => generateComplexF fuel kvs
    | _ => some (.error "unexpected schema type")

def generateUnionF : Nat → List Json → Option (Except String Json)
  | 0, _ => none
  | fuel + 1, types =>
    match types with
    | [] => some (.ok .null)
    | t :: rest =>
      if t = Json.str "null" then generateUnionF fuel rest
      else generateValueF fuel t

def generateComplexF : Nat → List (String × Json) → Option (Except String Json)
  | 0, _ => none
  | fuel + 1, kvs =>
    match lookupJ kvs "type" with
    | some (.str schemaType) =>
      if schemaType = "record" then generateRecordF fuel kvs
      else if schemaType = "array" then some (generateArray kvs)
      else if schemaType = "map" then some (generateMap kvs)
      else if schemaType = "enum" then some (generateEnum kvs)
      else if schemaType = "fixed" then some (generateFixed kvs)
      else some (generatePrimitive schemaType)
    | _ => some (.error "missing or invalid 'type' field")

def generateRecordF : Nat → List (String × Json) → Option (Except String Json)
  | 0, _ => none
  | fuel + 1, kvs =>
    match lookupJ kvs "fields" with
    | some (.arr fields) => (genFieldsF fuel fields []).map (Except.map Json.obj)
    | _ => some (.error "record missing 'fields'")

def genFieldsF : Nat → List Json → List (String × Json) →
    Option (Except String (List (String × Json)))
  | 0, _, _ => none
  | fuel + 1, fields, result =>
    match fields with
    | [] => some (.ok result)
    | f :: rest =>
      match f with
      | .obj fkvs =>
        match lookupJ fkvs "name" with
        | some (.str name) =>
          match lookupJ fkvs "type" with
          | some fieldType =>
            match lookupJ fkvs "default" with
            | some defaultVal => genFieldsF fuel rest (mapInsert result name defaultVal)
            | none =>
              match generateValueF fuel fieldType with
              | none => none
              | some (.ok v) => genFieldsF fuel rest (mapInsert result name v)
              | some (.error e) => some (.error ("field " ++ name ++ ": " ++ e))
          | none => genFieldsF fuel rest result
        | _ => genFieldsF fuel rest result
      | _ => genFieldsF fuel rest result

end

theorem generateF_adequate : ∀ fuel : Nat,
    (∀ s, 4 * sizeOf s + 3 < fuel → generateValueF fuel s = some (generateValue s)) ∧
    (∀ ts, 4 * sizeOf ts < fuel → generateUnionF fuel ts = some (generateUnion ts)) ∧
    (∀ kvs, 4 * sizeOf kvs + 2 < fuel → generateComplexF fuel kvs = some (generateComplex kvs)) ∧
    (∀ kvs, 4 * sizeOf kvs + 1 < fuel → generateRecordF fuel kvs = some (generateRecord kvs)) ∧
    (∀ fields result, 4 * sizeOf fields < fuel →
      genFieldsF fuel fields result = some (genFields fields result)) := by
  intro fuel
  induction fuel using Nat.strong_induction_on with
  | _ fuel ih =>
    match fuel with
    | 0 => exact ⟨fun s h => by omega, fun ts h => by omega, fun kvs h => by omega,
        fun kvs h => by omega, fun fields r h => by omega⟩
    | n + 1 =>
      have ihn := ih n (by omega)
      refine ⟨?_, ?_, ?_, ?_, ?_⟩
      · intro s h
        cases s with
        | str t => simp [generateValueF, generateValue]
        | arr ts =>
          rw [generateValue]
          simpa [generateValueF] using ihn.2.1 ts (by simp at h; omega)
        | obj kvs =>
          rw [generateValue]
          simpa [generateValueF] using ihn.2.2.1 kvs (by simp at h; omega)
        | null => simp [generateValueF, generateValue]
        | bool b => simp [generateValueF, generateValue]
        | num q => simp [generateValueF, generateValue]
      · intro ts h
        cases ts with
        | nil => simp [generateUnionF, generateUnion]
        | cons t rest =>
          have hpos := json_sizeOf_pos t
          simp only [List.cons.sizeOf_spec] at h
          rw [generateUnion]
          by_cases ht : t = Json.str "null"
          · simpa [generateUnionF, ht] using ihn.2.1 rest (by omega)
          · simpa [generateUnionF, ht] using ihn.1 t (by omega)
      · intro kvs h
        have hrec : generateRecordF n kvs = some (generateRecord kvs) :=
          ihn.2.2.2.1 kvs (by omega)
        rw [generateComplex]
        cases hl : lookupJ kvs "type" with
        | none => simp [generateComplexF, hl]
        | some v =>
          cases v with
          | str schemaType =>
            by_cases h1 : schemaType = "record"
            · simp [generateComplexF, hl, h1, hrec]
            · by_cases h2 : schemaType = "array"
              · simp [generateComplexF, hl, h1, h2]
              · by_cases h3 : schemaType = "map"
                · simp [generateComplexF, hl, h1, h2, h3]
                · by_cases h4 : schemaType = "enum"
                  · simp [generateComplexF, hl, h1, h2, h3, h4]
                  · by_cases h5 : schemaType = "fixed"
                    · simp [generateComplexF, hl, h1, h2, h3, h4, h5]
                    · simp [generateComplexF, hl, h1, h2, h3, h4, h5]
          | null => simp [generateComplexF, hl]
          | bool b => simp [generateComplexF, hl]
          | num q => simp [generateComplexF, hl]
          | arr xs => simp [generateComplexF, hl]
          | obj o => simp [generateComplexF, hl]
      · intro kvs h
        cases hl : lookupJ kvs "fields" with
        | none =>
          rw [generateRecord.eq_def]
          simp [generateRecordF, hl]
        | some v =>
          cases v with
          | arr fields =>
            have hsz := lookupJ_sizeOf hl
            simp only [Json.arr.sizeOf_spec] at hsz
            have hfs := ihn.2.2.2.2 fields [] (by omega)
            rw [generateRecord_fields hl]
            simp [generateRecordF, hl, hfs, Option.map]
          | null => rw [generateRecord.eq_def]; simp [generateRecordF, hl]
          | bool b => rw [generateRecord.eq_def]; simp [generateRecordF, hl]
          | num q => rw [generateRecord.eq_def]; simp [generateRecordF, hl]
          | str s => rw [generateRecord.eq_def]; simp [generateRecordF, hl]
          | obj o => rw [generateRecord.eq_def]; simp [generateRecordF, hl]
      · intro fields result h
        cases fields with
        | nil => simp [genFieldsF, genFields]
        | cons f rest =>
          simp only [List.cons.sizeOf_spec] at h
          have hfpos := json_sizeOf_pos f
          have hrest : ∀ r, genFieldsF n rest r = some (genFields rest r) :=
            fun r => ihn.2.2.2.2 rest r (by omega)
          cases f with
          | obj fkvs =>
            simp only [Json.obj.sizeOf_spec] at h
            cases hn : lookupJ fkvs "name" with
            | none =>
              rw [genFields_cons_no_name (by simp [hn])]
              simpa [genFieldsF, hn] using hrest result
            | some nv =>
              cases nv with
              | str name =>
                cases hty : lookupJ fkvs "type" with
                | none =>
                  rw [genFields_cons_no_type hn hty]
                  simpa [genFieldsF, hn, hty] using hrest result
                | some fieldType =>
                  cases hd : lookupJ fkvs "default" with
                  | some defaultVal =>
                    rw [genFields_cons_default hn hty hd]
                    simpa [genFieldsF, hn, hty, hd] using
                      hrest (mapInsert result name defaultVal)
                  | none =>
                    have hszt := lookupJ_sizeOf hty
                    have hv : generateValueF n fieldType = some (generateValue fieldType) :=
                      ihn.1 fieldType (by omega)
                    rw [genFields_cons_gen hn hty hd]
                    cases hgv : generateValue fieldType with
                    | ok v =>
                      simpa [genFieldsF, hn, hty, hd, hv, hgv] using
                        hrest (mapInsert result name v)
                    | error e => simp [genFieldsF, hn, hty, hd, hv, hgv]
              | null =>
                rw [genFields_cons_no_name (by simp [hn])]
                simpa [genFieldsF, hn] using hrest result
              | bool b =>
                rw [genFields_cons_no_name (by simp [hn])]
                simpa [genFieldsF, hn] using hrest result
              | num q =>
                rw [genFields_cons_no_name (by simp [hn])]
                simpa [genFieldsF, hn] using hrest result
              | arr xs =>
                rw [genFields_cons_no_name (by simp [hn])]
                simpa [genFieldsF, hn] using hrest result
              | obj o =>
                rw [genFields_cons_no_name (by simp [hn])]
                simpa [genFieldsF, hn] using hrest result
          | null =>
            rw [genFields.eq_3 _ _ _ (fun _ hcon => Json.noConfusion hcon)]
            simpa [genFieldsF] using hrest result
          | bool b =>
            rw [genFields.eq_3 _ _ _ (fun _ hcon => Json.noConfusion hcon)]
            simpa [genFieldsF] using hrest result
          | num q =>
            rw [genFields.eq_3 _ _ _ (fun _ hcon => Json.noConfusion hcon)]
            simpa [genFieldsF] using hrest result
          | str s =>
            rw [genFields.eq_3 _ _ _ (fun _ hcon => Json.noConfusion hcon)]
            simpa [genFieldsF] using hrest result
          | arr xs =>
            rw [genFields.eq_3 _ _ _ (fun _ hcon => Json.noConfusion hcon)]
            simpa [genFieldsF] using hrest result

/-- Evaluate `generateValue` on a concrete schema through the fuel twin. -/
theorem generateValue_eval (fuel : Nat) {s : Json} {r : Except String Json}
    (hf : 4 * sizeOf s + 3 < fuel) (h : generateValueF fuel s = some r) :
    generateValue s = r := by
  have ha := (generateF_adequate fuel).1 s hf
  rw [h] at ha
  exact (Option.some.inj ha).symm

/-! ## Go JSON marshalling of the generated value

`GenerateTemplate` finishes with `json.MarshalIndent(result, "", "  ")`.
Go maps are unordered and `encoding/json` emits the keys of a map in
sorted (byte-wise ascending) order.  `marshalJson` models the observable
structure of the marshalled output: the same value with every object's
bindings sorted by key. -/

/-- Character-list comparison by code point.  UTF-8 byte order coincides
with code-point order, so this is exactly Go's byte-wise string order. -/
def charListLt : List Char → List Char → Bool
  | _, [] => false
  | [], _ :: _ => true
  | c :: cs, d :: ds =>
    if c.toNat < d.toNat then true
    else if d.toNat < c.toNat then false
    else charListLt cs ds

/-- Go's byte-wise string comparison used by `encoding/json` to sort map keys. -/
def strLtB (a b : String) : Bool := charListLt a.data b.data

/-- Insert a binding into a key-sorted binding list (insertion sort step). -/
def insertByKey (p : String × Json) : List (String × Json) → List (String × Json)
  | [] => [p]
  | q :: rest => if strLtB p.1 q.1 then p :: q :: rest else q :: insertByKey p rest

/-- Sort a binding list by key, as `encoding/json` orders map keys. -/
def sortByKey : List (String × Json) → List (String × Json)
  | [] => []
  | p :: rest => insertByKey p (sortByKey rest)

/-- Insertion sort on strings with the same comparison as `sortByKey`. -/
def insertString (s : String) : List String → List String
  | [] => [s]
  | t :: rest => if strLtB s t then s :: t :: rest else t :: insertString s rest

def sortStrings : List String → List String
  | [] => []
  | s :: rest => insertString s (sortStrings rest)

mutual

/-- The marshalled form of a Go value: identical except that every object's
bindings appear in sorted key order. -/
def marshalJson : Json → Json
  | .arr xs => .arr (marshalList xs)
  | .obj kvs => .obj (sortByKey (marshalObj kvs))
  | v => v
termination_by v => sizeOf v
decreasing_by
  all_goals simp_wf
  all_goals omega

def marshalList : List Json → List Json
  | [] => []
  | x :: xs => marshalJson x :: marshalList xs
termination_by xs => sizeOf xs
decreasing_by
  all_goals simp_wf
  all_goals omega

def marshalObj : List (String × Json) → List (String × Json)
  | [] => []
  | (k, v) :: kvs => (k, marshalJson v) :: marshalObj kvs
termination_by kvs => sizeOf kvs
decreasing_by
  all_goals simp_wf
  all_goals omega

end

mutual

/-- A compact textual rendering of a marshalled value, standing for the
serialized JSON text (string escaping and numeric/indentation details of
`json.MarshalIndent` are abbreviated; only injectional structure matters
to the engine, which treats the text opaquely). -/
def renderJson : Json → String
  | .null => "null"
  | .bool b => if b then "true" else "false"
  | .num q => if q.den = 1 then toString q.num else toString q.num ++ "/" ++ toString q.den
  | .str s => "\"" ++ s ++ "\""
  | .arr xs => "[" ++ renderList xs ++ "]"
  | .obj kvs => "\x7b" ++ renderObj kvs ++ "\x7d"
termination_by v => sizeOf v
decreasing_by
  all_goals simp_wf
  all_goals omega

def renderList : List Json → String
  | [] => ""
  | [x] => renderJson x
  | x :: xs => renderJson x ++ "," ++ renderList xs
termination_by xs => sizeOf xs
decreasing_by
  all_goals simp_wf
  all_goals omega

def renderObj : List (String × Json) → String
  | [] => ""
  | [(k, v)] => "\"" ++ k ++ "\":" ++ renderJson v
  | (k, v) :: kvs => "\"" ++ k ++ "\":" ++ renderJson v ++ "," ++ renderObj kvs
termination_by kvs => sizeOf kvs
decreasing_by
  all_goals simp_wf
  all_goals omega

end

/-- `GenerateTemplate` from template.go, at the level of JSON values: the
schema text is embedded as its parsed value (the `json.Unmarshal` boundary),
and the final `json.MarshalIndent` is modelled by `marshalJson`. -/
def generateTemplate (schema : Json) : Except String Json :=
  (generateValue schema).map marshalJson

/-- `GenerateTemplate` including the final serialization to text, as the
engine stores it in the draft editor. -/
def generateTemplateText (schema : Json) : Except String String :=
  (generateTemplate schema).map renderJson

theorem except_map_ok {α β ε : Type _} (f : α → β) (x : α) :
    Except.map f (Except.ok (ε := ε) x) = Except.ok (f x) := rfl

theorem except_map_error {α β ε : Type _} (f : α → β) (e : ε) :
    Except.map f (Except.error (α := α) e) = Except.error e := rfl

/-! ### Fuel-indexed twins of the marshaller and renderer, for computing
them on concrete values (the well-founded originals do not reduce). -/

mutual

def marshalJsonF : Nat → Json → Option Json
  | 0, _ => none
  | fuel + 1, v =>
    match v with
    | .arr xs => (marshalListF fuel xs).map Json.arr
    | .obj kvs => (marshalObjF fuel kvs).map (fun l => Json.obj (sortByKey l))
    | w => some w

def marshalListF : Nat → List Json → Option (List Json)
  | 0, _ => none
  | fuel + 1, [] => some []
  | fuel + 1, x :: xs =>
    match marshalJsonF fuel x, marshalListF fuel xs with
    | some y, some ys => some (y :: ys)
    | _, _ => none

def marshalObjF : Nat → List (String × Json) → Option (List (String × Json))
  | 0, _ => none
  | fuel + 1, [] => some []
  | fuel + 1, (k, v) :: kvs =>
    match marshalJsonF fuel v, marshalObjF fuel kvs with
    | some w, some ws => some ((k, w) :: ws)
    | _, _ => none

end

theorem marshalF_adequate : ∀ fuel : Nat,
    (∀ v, sizeOf v < fuel → marshalJsonF fuel v = some (marshalJson v)) ∧
    (∀ xs, sizeOf xs < fuel → marshalListF fuel xs = some (marshalList xs)) ∧
    (∀ kvs, sizeOf kvs < fuel → marshalObjF fuel kvs = some (marshalObj kvs)) := by
  intro fuel
  induction fuel using Nat.strong_induction_on with
  | _ fuel ih =>
    match fuel with
    | 0 => exact ⟨fun v h => by omega, fun xs h => by omega, fun kvs h => by omega⟩
    | n + 1 =>
      have ihn := ih n (by omega)
      refine ⟨?_, ?_, ?_⟩
      · intro v h
        cases v with
        | arr xs =>
          have hx := ihn.2.1 xs (by simp at h; omega)
          simp [marshalJsonF, marshalJson, hx]
        | obj kvs =>
          have hx := ihn.2.2 kvs (by simp at h; omega)
          simp [marshalJsonF, marshalJson, hx]
        | null => simp [marshalJsonF, marshalJson]
        | bool b => simp [marshalJsonF, marshalJson]
        | num q => simp [marshalJsonF, marshalJson]
        | str s => simp [marshalJsonF, marshalJson]
      · intro xs h
        cases xs with
        | nil => simp [marshalListF, marshalList]
        | cons x rest =>
          simp only [List.cons.sizeOf_spec] at h
          have h1 := ihn.1 x (by omega)
          have h2 := ihn.2.1 rest (by omega)
          simp [marshalListF, marshalList, h1, h2]
      · intro kvs h
        cases kvs with
        | nil => simp [marshalObjF, marshalObj]
        | cons p rest =>
          obtain ⟨k, v⟩ := p
          simp only [List.cons.sizeOf_spec, Prod.mk.sizeOf_spec] at h
          have h1 := ihn.1 v (by omega)
          have h2 := ihn.2.2 rest (by omega)
          simp [marshalObjF, marshalObj, h1, h2]

theorem marshalJson_eval (fuel : Nat) {v w : Json} (hf : sizeOf v < fuel)
    (h : marshalJsonF fuel v = some w) : marshalJson v = w := by
  have ha := (marshalF_adequate fuel).1 v hf
  rw [h] at ha
  exact (Option.some.inj ha).symm

mutual

def renderJsonF : Nat → Json → Option String
  | 0, _ => none
  | fuel + 1, v =>
    match v with
    | .null => some "null"
    | .bool b => some (if b then "true" else "false")
    | .num q => some (if q.den = 1 then toString q.num
        else toString q.num ++ "/" ++ toString q.den)
    | .str s => some ("\"" ++ s ++ "\"")
    | .arr xs => (renderListF fuel xs).map (fun r => "[" ++ r ++ "]")
    | .obj kvs => (renderObjF fuel kvs).map (fun r => "\x7b" ++ r ++ "\x7d")

def renderListF : Nat → List Json → Option String
  | 0, _ => none
  | fuel + 1, [] => some ""
  | fuel + 1, [x] => renderJsonF fuel x
  | fuel + 1, x :: xs =>
    match renderJsonF fuel x, renderListF fuel xs with
    | some a, some b => some (a ++ "," ++ b)
    | _, _ => none

def renderObjF : Nat → List (String × Json) → Option String
  | 0, _ => none
  | fuel + 1, [] => some ""
  | fuel + 1, [(k, v)] => (renderJsonF fuel v).map (fun r => "\"" ++ k ++ "\":" ++ r)
  | fuel + 1, (k, v) :: kvs =>
    match renderJsonF fuel v, renderObjF fuel kvs with
    | some a, some b => some ("\"" ++ k ++ "\":" ++ a ++ "," ++ b)
    | _, _ => none

end

theorem renderF_adequate : ∀ fuel : Nat,
    (∀ v, sizeOf v < fuel → renderJsonF fuel v = some (renderJson v)) ∧
    (∀ xs, sizeOf xs < fuel → renderListF fuel xs = some (renderList xs)) ∧
    (∀ kvs, sizeOf kvs < fuel → renderObjF fuel kvs = some (renderObj kvs)) := by
  intro fuel
  induction fuel using Nat.strong_induction_on with
  | _ fuel ih =>
    match fuel with
    | 0 => exact ⟨fun v h => by omega, fun xs h => by omega, fun kvs h => by omega⟩
    | n + 1 =>
      have ihn := ih n (by omega)
      refine ⟨?_, ?_, ?_⟩
      · intro v h
        cases v with
        | arr xs =>
          have hx := ihn.2.1 xs (by simp at h; omega)
          simp [renderJsonF, renderJson, hx]
        | obj kvs =>
          have hx := ihn.2.2 kvs (by simp at h; omega)
          simp [renderJsonF, renderJson, hx]
        | null => simp [renderJsonF, renderJson]
        | bool b => simp [renderJsonF, renderJson]
        | num q => simp [renderJsonF, renderJson]
        | str s => simp [renderJsonF, renderJson]
      · intro xs h
        cases xs with
        | nil => simp [renderListF, renderList]
        | cons x rest =>
          simp only [List.cons.sizeOf_spec] at h
          have h1 := ihn.1 x (by omega)
          cases rest with
          | nil => simpa [renderListF, renderList] using h1
          | cons y ys =>
            have h2 := ihn.2.1 (y :: ys) (by simp at h ⊢; omega)
            simp [renderListF, renderList, h1, h2]
      · intro kvs h
        cases kvs with
        | nil => simp [renderObjF, renderObj]
        | cons p rest =>
          obtain ⟨k, v⟩ := p
          simp only [List.cons.sizeOf_spec, Prod.mk.sizeOf_spec] at h
          have h1 := ihn.1 v (by omega)
          cases rest with
          | nil => simp [renderObjF, renderObj, h1]
          | cons q qs =>
            have h2 := ihn.2.2 (q :: qs) (by simp at h ⊢; omega)
            simp [renderObjF, renderObj, h1, h2]

theorem renderJson_eval (fuel : Nat) {v : Json} {s : String} (hf : sizeOf v < fuel)
    (h : renderJsonF fuel v = some s) : renderJson v = s := by
  have ha := (renderF_adequate fuel).1 v hf
  rw [h] at ha
  exact (Option.some.inj ha).symm

/-- Evaluate `generateTemplate` on a concrete schema. -/
theorem generateTemplate_eval (fuel : Nat) {s v w : Json}
    (hf1 : 4 * sizeOf s + 3 < fuel) (h1 : generateValueF fuel s = some (.ok v))
    (hf2 : sizeOf v < fuel) (h2 : marshalJsonF fuel v = some w) :
    generateTemplate s = .ok w := by
  rw [generateTemplate, generateValue_eval fuel hf1 h1, except_map_ok,
    marshalJson_eval fuel hf2 h2]

/-- Evaluate `generateTemplateText` on a concrete schema. -/
theorem generateTemplateText_eval (fuel : Nat) {s v w : Json} {txt : String}
    (hf1 : 4 * sizeOf s + 3 < fuel) (h1 : generateValueF fuel s = some (.ok v))
    (hf2 : sizeOf v < fuel) (h2 : marshalJsonF fuel v = some w)
    (hf3 : sizeOf w < fuel) (h3 : renderJsonF fuel w = some txt) :
    generateTemplateText s = .ok txt := by
  rw [generateTemplateText, generateTemplate_eval fuel hf1 h1 hf2 h2, except_map_ok,
    renderJson_eval fuel hf3 h3]

/-! ## Kafka producer (internal/kafka/producer.go)

Bytes are embedded as `Nat` (each produced byte is reduced `% 256` where Go
truncates).  A `kafka.Message`'s key is `nil` unless explicitly assigned;
`none` models the nil slice. -/

structure KafkaMessage where
  topic : String
  key : Option (List Nat)
  value : List Nat
deriving DecidableEq

/-- Go's `uint32(schemaID)` conversion from `int`: the low 32 bits,
i.e. the value modulo `2^32` (two's complement for negatives). -/
def uint32ofInt (i : Int) : Nat := (i % (2 ^ 32 : Int)).toNat

/-- `binary.BigEndian.PutUint32`: big-endian bytes of a 32-bit value;
`byte(x)` is `x % 256`. -/
def putUint32BE (v : Nat) : List Nat :=
  [v >>> 24 % 256, v >>> 16 % 256, v >>> 8 % 256, v % 256]

/-- `Producer.Produce`: the transmitted value is the 5-byte Schema Registry
wire header (magic byte `0x00`, then the schema id big-endian) followed by
the payload; the key is attached only when non-nil. -/
def produce (topic : String) (schemaID : Int) (key : Option (List Nat))
    (value : List Nat) : KafkaMessage :=
  { topic := topic
    key := key
    value := 0x00 :: putUint32BE (uint32ofInt schemaID) ++ value }

/-- UTF-8 bytes of a string, as Go's `[]byte(key)`. -/
def strBytes (s : String) : List Nat := s.toUTF8.toList.map (fun b => b.toNat)

/-- `Producer.ProduceWithStringKey`: an empty string key leaves the key
slice nil; a non-empty key is passed as its UTF-8 bytes. -/
def produceWithStringKey (topic : String) (schemaID : Int) (key : String)
    (value : List Nat) : KafkaMessage :=
  produce topic schemaID (if key = "" then none else some (strBytes key)) value

/-! ## Kafka consumer (consumer source file, `Consumer.FetchMessages`) -/

/-- The consumer's `Message` record: key, value, partition offset, timestamp
(the Go `time.Time` is embedded as an integer tick count; the engine treats
it opaquely). -/
structure KMsg where
  key : String
  value : String
  offset : Int
  timestamp : Int
deriving DecidableEq

/-- The outcome of one blocking `reader.FetchMessage(ctx)` call: a message,
`context.DeadlineExceeded`, or another error. -/
inductive FetchOutcome where
  | msg (m : KMsg)
  | deadline
  | err (e : String)

/-- The loop body of `Consumer.FetchMessages`: up to `n` more iterations,
reading call `i` of the stream.  Deadline expiry breaks and returns what was
accumulated; a non-deadline error is returned as an error only when nothing
was accumulated yet. -/
def fetchLoop (reader : Nat → FetchOutcome) : Nat → Nat → List KMsg →
    Except String (List KMsg)
  | _, 0, acc => .ok acc
  | i, n + 1, acc =>
    match reader i with
    | .msg m => fetchLoop reader (i + 1) n (acc ++ [m])
    | .deadline => .ok acc
    | .err e => if acc.isEmpty then .error e else .ok acc

/-- `Consumer.FetchMessages(ctx, maxMessages)`. -/
def fetchMessages (reader : Nat → FetchOutcome) (maxMessages : Nat) :
    Except String (List KMsg) :=
  fetchLoop reader 0 maxMessages []

/-- A topic holding exactly the messages `avail`: each successive fetch call
delivers the next available message, and the context deadline expires once
they are exhausted. -/
def mkReader (avail : List KMsg) : Nat → FetchOutcome :=
  fun i => if h : i < avail.length then .msg avail[i] else .deadline

theorem fetchLoop_mkReader (avail : List KMsg) :
    ∀ n i acc, avail.length - i < n →
      fetchLoop (mkReader avail) i n acc = .ok (acc ++ avail.drop i) := by
  intro n
  induction n with
  | zero => intro i acc h; omega
  | succ n ih =>
    intro i acc h
    by_cases hi : i < avail.length
    · rw [fetchLoop]
      simp only [mkReader, dif_pos hi]
      rw [ih (i + 1) (acc ++ [avail[i]]) (by omega)]
      rw [List.append_assoc]
      congr 2
      exact (List.drop_eq_getElem_cons hi).symm
    · rw [fetchLoop]
      simp only [mkReader, dif_neg hi]
      rw [List.drop_eq_nil_of_le (by omega)]
      simp

/-- Requesting `maxMessages` from a topic with fewer available messages
returns exactly the available messages as a success. -/
theorem fetchMessages_short_batch (avail : List KMsg) (maxMessages : Nat)
    (h : avail.length < maxMessages) :
    fetchMessages (mkReader avail) maxMessages = .ok avail := by
  rw [fetchMessages, fetchLoop_mkReader avail maxMessages 0 [] (by omega)]
  simp

/-! ## Workflow engine (internal/ui/model.go)

The Bubbletea `Model.Update` loop is embedded as an explicit transition
function `update : Env → Model → Msg → Model × Cmd`.  `Env` carries the
outcomes of the collaborator calls the Go code performs synchronously
inside `Update` (clipboard write, consumer construction and fetch, event
persistence); asynchronous collaborators appear as `Cmd` values returned
to the runtime and as completion `Msg`s fed back in.  The external bubbles
text components (textinput/textarea/viewport) are collaborators: the
engine threads their value and focus flag; their per-key editing behaviour
is abbreviated by `componentEdit`, and the viewport's internal scroll
state is pure rendering state, not modelled. -/

/-- `config.SubjectToTopic`: strip a trailing `-value` or `-key`. -/
def subjectToTopic (subject : String) : String :=
  if subject.endsWith "-value" then subject.dropRight 6
  else if subject.endsWith "-key" then subject.dropRight 4
  else subject

/-- `registry.PrettyPrintSchema`: parse and re-marshal (which orders map
keys); the schema text is carried as its parsed value. -/
def prettyPrintSchema (schema : Json) : String := renderJson (marshalJson schema)

inductive Pane where
  | listPane
  | viewerPane
deriving DecidableEq

inductive UIState where
  | loading
  | browsing
  | searching
  | viewing
  | sendMode
  | sending
  | savingEvent
  | loadingEvent
  | consumerMode
deriving DecidableEq

/-- `registry.SchemaResponse`; the schema text is embedded parsed. -/
structure SchemaResponse where
  subject : String
  version : Int
  id : Int
  schemaType : String
  schema : Json
deriving DecidableEq

/-- An `events.Event` as returned by the persistence gateway. -/
structure SavedEvent where
  name : String
  payload : String
deriving DecidableEq

/-- `ui.EventSaverModel` (save-draft sub-form). -/
structure EventSaverModel where
  topic : String
  payload : String
  schemaID : Int
  eventName : String
  focusedIdx : Int
  saved : Bool
  quit : Bool
  err : String
  filePath : String
deriving DecidableEq

/-- `ui.EventLoaderModel` (load-draft sub-form). -/
structure EventLoaderModel where
  topic : String
  files : List String
  selectedIdx : Int
  selectedEvent : Option SavedEvent
  quit : Bool
  err : String
deriving DecidableEq

/-- The engine's session state, `ui.Model`.  Bubbles components are
represented by their value and focus flag; the read-only configuration
strings that `Update` interpolates into messages are carried as
`cfgBootstrap`/`cfgSecurityProtocol`; `hasConsumer` models the
`m.consumer != nil` handle. -/
structure Model where
  subjects : List String
  filteredSubjects : List String
  selectedIndex : Int
  selectedSubject : String
  currentSchema : String
  rawSchema : Json
  schemaID : Int
  searchValue : String
  searchFocused : Bool
  keyValue : String
  keyFocused : Bool
  viewerContent : String
  editorValue : String
  editorFocused : Bool
  focusedPane : Pane
  state : UIState
  sendKeyFocused : Bool
  width : Int
  height : Int
  err : Option String
  statusMsg : String
  copyNotify : String
  lastPayload : String
  eventSaver : EventSaverModel
  eventLoader : EventLoaderModel
  hasConsumer : Bool
  consumedMessages : List KMsg
  currentMsgIdx : Int
  cfgBootstrap : String
  cfgSecurityProtocol : String
deriving DecidableEq

/-- The commands `Update` returns to the Bubbletea runtime. -/
inductive Cmd where
  | none
  | quit
  | blink
  | loadSubjects
  | loadSchema (subject : String)
  | sendMessage
  | openExternalEditor
deriving DecidableEq

/-- The events `Update` consumes: window size, the three asynchronous
completion messages, the external-editor result, and key presses
(identified by their `msg.String()` name). -/
inductive Msg where
  | windowSize (width height : Int)
  | subjectsLoaded (res : Except String (List String))
  | schemaLoaded (res : Except String SchemaResponse)
  | messageSent (topic : String) (err : Option String)
  | externalEditor (res : Except String String)
  | key (k : String)

/-- Outcomes of the collaborator calls performed synchronously inside
`Update`: clipboard write, `kafka.NewConsumer`, the consumer fetch stream,
and the event persistence gateway. -/
structure Env where
  clipboardErr : Option String
  reader : Nat → FetchOutcome
  newConsumerErr : Option String
  listEventsRes : Except String (List String)
  loadEventRes : String → Except String SavedEvent
  saveEventRes : Except String String

/-- Abbreviated value transformation of the external text components:
printable single characters append, backspace deletes the last character,
anything else leaves the value unchanged. -/
def componentEdit (value : String) (k : String) : String :=
  if k.length = 1 then value ++ k
  else if k = "backspace" then value.dropRight 1
  else value

/-- `ui.NewEventSaver`. -/
def newEventSaver (topic : String) (schemaID : Int) (payload : String) :
    EventSaverModel :=
  { topic := topic, payload := payload, schemaID := schemaID, eventName := ""
    focusedIdx := 0, saved := false, quit := false, err := "", filePath := "" }

/-- `EventSaverModel.Update` on a key event; the `events.SaveEvent` call is
the persistence gateway, its outcome supplied by `Env`. -/
def eventSaverUpdate (env : Env) (m : EventSaverModel) (k : String) :
    EventSaverModel :=
  if k = "esc" then { m with quit := true }
  else if k = "enter" then
    match env.saveEventRes with
    | .error e => { m with err := e }
    | .ok path => { m with saved := true, filePath := path, quit := true }
  else if k.length = 1 then { m with eventName := m.eventName ++ k }
  else if k = "backspace" then { m with eventName := m.eventName.dropRight 1 }
  else if k = "ctrl+u" then { m with eventName := "" }
  else m

/-- `ui.NewEventLoader`: lists the saved events for the topic at
construction time (persistence gateway). -/
def newEventLoader (env : Env) (topic : String) : EventLoaderModel :=
  match env.listEventsRes with
  | .error e =>
    { topic := topic, files := [], selectedIdx := 0, selectedEvent := none
      quit := false, err := e }
  | .ok files =>
    { topic := topic, files := files, selectedIdx := 0, selectedEvent := none
      quit := false, err := "" }

/-- `EventLoaderModel.Update` on a key event. -/
def eventLoaderUpdate (env : Env) (m : EventLoaderModel) (k : String) :
    EventLoaderModel :=
  if k = "q" ∨ k = "esc" then { m with quit := true }
  else if k = "enter" then
    if 0 ≤ m.selectedIdx ∧ m.selectedIdx < (m.files.length : Int) then
      match env.loadEventRes (m.files.getD m.selectedIdx.toNat "") with
      | .error e => { m with err := e }
      | .ok ev => { m with selectedEvent := some ev, quit := true }
    else m
  else if k = "j" ∨ k = "down" then
    if m.selectedIdx < (m.files.length : Int) - 1 then
      { m with selectedIdx := m.selectedIdx + 1 }
    else m
  else if k = "k" ∨ k = "up" then
    if m.selectedIdx > 0 then { m with selectedIdx := m.selectedIdx - 1 } else m
  else m

/-- `Model.enterSendMode`: regenerate the draft from the Schema Template
Generator on the current schema, clear the key field, focus the editor. -/
def enterSendMode (m : Model) : Model × Cmd :=
  match generateTemplateText m.rawSchema with
  | .error e => ({ m with err := some ("generating template: " ++ e) }, .none)
  | .ok template =>
    ({ m with
        editorValue := template
        editorFocused := true
        keyValue := ""
        keyFocused := false
        sendKeyFocused := false
        state := .sendMode
        statusMsg := "[SEND MODE] Target: " ++ subjectToTopic m.selectedSubject ++
          "  |  Ctrl+S send, Ctrl+N save, Ctrl+O load, Tab key, Esc cancel" },
      .blink)

/-- `Model.handleSendMode`. -/
def handleSendMode (env : Env) (m : Model) (k : String) : Model × Cmd :=
  if k = "esc" then
    ({ m with
        editorFocused := false, state := .viewing,
        statusMsg := "[VIEW] " ++ m.selectedSubject }, .none)
  else if k = "ctrl+s" then
    ({ m with
        lastPayload := m.editorValue, state := .sending,
        statusMsg := "[SENDING...] " ++ m.selectedSubject }, .sendMessage)
  else if k = "ctrl+n" then
    ({ m with
        eventSaver := newEventSaver (subjectToTopic m.selectedSubject) m.schemaID m.editorValue,
        state := .savingEvent, statusMsg := "[SAVE EVENT]" }, .none)
  else if k = "ctrl+o" then
    ({ m with
        eventLoader := newEventLoader env (subjectToTopic m.selectedSubject),
        state := .loadingEvent, statusMsg := "[LOAD EVENT]" }, .none)
  else if k = "y" then
    (match env.clipboardErr with
     | some e => { m with err := some ("failed to copy: " ++ e) }
     | none => { m with copyNotify := "Message copied to clipboard!" }, .none)
  else if k = "tab" ∨ k = "shift+tab" then
    (if m.sendKeyFocused then
      { m with keyFocused := false, editorFocused := true, sendKeyFocused := false }
     else
      { m with editorFocused := false, keyFocused := true, sendKeyFocused := true },
     .none)
  else
    (if m.sendKeyFocused then { m with keyValue := componentEdit m.keyValue k }
     else { m with editorValue := componentEdit m.editorValue k }, .none)

/-- `Model.handleSavingEvent`. -/
def handleSavingEvent (env : Env) (m : Model) (k : String) : Model × Cmd :=
  let s := eventSaverUpdate env m.eventSaver k
  let m1 := { m with eventSaver := s }
  if s.quit then
    let m2 :=
      if s.saved then { m1 with statusMsg := "[SEND MODE] Saved: " ++ s.filePath }
      else m1
    ({ m2 with state := .sendMode }, .none)
  else (m1, .none)

/-- `Model.handleLoadingEvent`. -/
def handleLoadingEvent (env : Env) (m : Model) (k : String) : Model × Cmd :=
  let l := eventLoaderUpdate env m.eventLoader k
  let m1 := { m with eventLoader := l }
  if l.quit then
    match l.selectedEvent with
    | some ev =>
      ({ m1 with
          editorValue := ev.payload,
          statusMsg := "[SEND MODE] Loaded: " ++ ev.name, state := .sendMode }, .none)
    | none => ({ m1 with state := .sendMode }, .none)
  else (m1, .none)

/-- `Model.enterConsumerMode`: create the consumer handle, reset the
consumed-message buffer, enter consumer mode. -/
def enterConsumerMode (env : Env) (m : Model) : Model × Cmd :=
  let topic := subjectToTopic m.selectedSubject
  match env.newConsumerErr with
  | some e =>
    ({ m with
        err := some ("[DEBUG] Failed to create consumer for topic " ++
          topic ++ ": " ++ e) }, .none)
  | none =>
    ({ m with
        hasConsumer := true, consumedMessages := [], currentMsgIdx := 0,
        state := .consumerMode,
        statusMsg := "[CONSUMER MODE] Topic: " ++ topic ++
          "  |  Ctrl+M consume, Esc cancel, j/k navigate",
        err := some ("[DEBUG] Consumer created for topic: " ++ topic ++
          " | Bootstrap: " ++ m.cfgBootstrap ++ " | Security: " ++
          m.cfgSecurityProtocol ++ " | Press Ctrl+M to fetch messages") },
      .none)

/-- `Model.handleConsumerMode`; the blocking `FetchMessages` call inside the
`ctrl+m` branch draws from `env.reader`. -/
def handleConsumerMode (env : Env) (m : Model) (k : String) : Model × Cmd :=
  if k = "esc" then
    ({ m with
        hasConsumer := false, consumedMessages := [], currentMsgIdx := 0,
        state := .viewing, statusMsg := "[VIEW] " ++ m.selectedSubject }, .none)
  else if k = "ctrl+m" then
    let topic := subjectToTopic m.selectedSubject
    match fetchMessages env.reader 10 with
    | .error e =>
      ({ m with
          err := some ("[DEBUG] Topic: " ++ topic ++ " | Consumer error: " ++ e),
          statusMsg := "[CONSUMER MODE] ERROR - Check error area above. Topic: " ++ topic },
        .none)
    | .ok messages =>
      if messages.isEmpty then
        ({ m with
            statusMsg := "[CONSUMER MODE] No messages available | Topic: " ++ topic ++
              " | Bootstrap: " ++ m.cfgBootstrap ++ " | Protocol: " ++ m.cfgSecurityProtocol,
            err := some ("[DEBUG] Fetch returned 0 messages for topic " ++ topic ++
              ". This means either: (1) topic has no messages, (2) consumer started reading from end instead of beginning, or (3) connection issue") },
          .none)
      else
        ({ m with
            consumedMessages := messages, currentMsgIdx := 0,
            statusMsg := "[CONSUMER MODE] Fetched " ++ toString messages.length ++
              " messages. Showing 1/" ++ toString messages.length ++
              " | [DEBUG] Successfully fetched " ++ toString messages.length ++
              " messages from topic: " ++ topic },
          .none)
  else if k = "j" ∨ k = "down" then
    if m.currentMsgIdx < (m.consumedMessages.length : Int) - 1 then
      ({ m with
          currentMsgIdx := m.currentMsgIdx + 1,
          statusMsg := "[CONSUMER MODE] Message " ++ toString (m.currentMsgIdx + 2) ++
            "/" ++ toString m.consumedMessages.length }, .none)
    else (m, .none)
  else if k = "k" ∨ k = "up" then
    if m.currentMsgIdx > 0 then
      ({ m with
          currentMsgIdx := m.currentMsgIdx - 1,
          statusMsg := "[CONSUMER MODE] Message " ++ toString m.currentMsgIdx ++
            "/" ++ toString m.consumedMessages.length }, .none)
    else (m, .none)
  else if k = "y" then
    if m.consumedMessages.length > 0 then
      (match env.clipboardErr with
       | some e => { m with err := some ("failed to copy: " ++ e) }
       | none => { m with copyNotify := "Message copied to clipboard!" }, .none)
    else (m, .none)
  else (m, .none)

/-- Substring test, as Go's `strings.Contains`. -/
def leadsWith : List Char → List Char → Bool
  | _, [] => true
  | [], _ :: _ => false
  | c :: cs, d :: ds => c = d && leadsWith cs ds

def hasSubList : List Char → List Char → Bool
  | [], needle => needle.isEmpty
  | c :: rest, needle => leadsWith (c :: rest) needle || hasSubList rest needle

def containsSubstr (s sub : String) : Bool := hasSubList s.data sub.data

/-- `Model.filterSubjects`. -/
def filterSubjects (m : Model) : Model :=
  let query := m.searchValue.toLower
  let m1 :=
    if query = "" then { m with filteredSubjects := m.subjects }
    else
      { m with filteredSubjects :=
          m.subjects.filter (fun s => containsSubstr s.toLower query) }
  { m1 with selectedIndex := 0 }

/-- `Model.handleSearchInput`. -/
def handleSearchInput (m : Model) (k : String) : Model × Cmd :=
  if k = "esc" then
    ({ m with
        state := .browsing, searchFocused := false, searchValue := "",
        filteredSubjects := m.subjects, selectedIndex := 0 }, .none)
  else if k = "enter" then
    ({ m with state := .browsing, searchFocused := false }, .none)
  else
    (filterSubjects { m with searchValue := componentEdit m.searchValue k }, .none)

/-- `Model.handleListNavigation`.  Go indexes
`m.filteredSubjects[m.selectedIndex]` directly (panicking out of range);
the embedding totalizes with a default, never exercised under the
invariant `0 ≤ selectedIndex < length` that the navigation maintains. -/
def handleListNavigation (m : Model) (k : String) : Model × Cmd :=
  if k = "up" ∨ k = "k" then
    (if m.selectedIndex > 0 then { m with selectedIndex := m.selectedIndex - 1 }
     else m, .none)
  else if k = "down" ∨ k = "j" then
    (if m.selectedIndex < (m.filteredSubjects.length : Int) - 1 then
      { m with selectedIndex := m.selectedIndex + 1 }
     else m, .none)
  else if k = "enter" then
    if m.filteredSubjects.length > 0 then
      let subject := m.filteredSubjects.getD m.selectedIndex.toNat ""
      ({ m with
          selectedSubject := subject,
          statusMsg := "Loading schema for " ++ subject ++ "..." },
        .loadSchema subject)
    else (m, .none)
  else if k = "pgup" ∨ k = "ctrl+u" then
    let idx := m.selectedIndex - 10
    ({ m with selectedIndex := if idx < 0 then 0 else idx }, .none)
  else if k = "pgdown" ∨ k = "ctrl+d" then
    let idx1 := m.selectedIndex + 10
    let idx2 :=
      if idx1 ≥ (m.filteredSubjects.length : Int) then
        (m.filteredSubjects.length : Int) - 1
      else idx1
    ({ m with selectedIndex := if idx2 < 0 then 0 else idx2 }, .none)
  else (m, .none)

/-- `Model.handleViewerNavigation` passes keys to the external viewport
component, whose scroll state is rendering state outside the engine. -/
def handleViewerNavigation (m : Model) (_k : String) : Model × Cmd := (m, .none)

/-- `Model.Update`: the single-threaded event loop.  Every key event first
clears `copyNotify` and `err`; exclusive-input states get first refusal;
otherwise the global bindings run and remaining keys go to the focused
pane. -/
def update (env : Env) (m : Model) (msg : Msg) : Model × Cmd :=
  match msg with
  | .windowSize w h => ({ m with width := w, height := h }, .none)
  | .subjectsLoaded res =>
    match res with
    | .error e => ({ m with err := some e, state := .browsing }, .none)
    | .ok subjects =>
      ({ m with
          subjects := subjects, filteredSubjects := subjects,
          state := .browsing,
          statusMsg := "Loaded " ++ toString subjects.length ++ " subjects" },
        .none)
  | .schemaLoaded res =>
    match res with
    | .error e => ({ m with err := some e }, .none)
    | .ok r =>
      ({ m with
          rawSchema := r.schema, schemaID := r.id,
          currentSchema := prettyPrintSchema r.schema,
          viewerContent := prettyPrintSchema r.schema,
          state := .viewing, focusedPane := .viewerPane,
          statusMsg := "[VIEW] " ++ r.subject ++ " (v" ++ toString r.version ++ ")" },
        .none)
  | .messageSent topic res =>
    match res with
    | some e =>
      ({ m with
          err := some e, state := .sendMode,
          statusMsg := "[SEND MODE] Failed - press Ctrl+S to retry" }, .none)
    | none =>
      ({ m with
          state := .viewing, editorFocused := false,
          statusMsg := "SUCCESS: Message produced to topic \x27" ++ topic ++ "\x27",
          copyNotify := "Message produced to \x27" ++ topic ++ "\x27!" }, .none)
  | .externalEditor res =>
    match res with
    | .error e => ({ m with err := some e, state := .viewing }, .none)
    | .ok content =>
      ({ m with
          editorValue := content, state := .sendMode,
          statusMsg := "[SEND MODE] Target: " ++ subjectToTopic m.selectedSubject ++
            "  |  Ctrl+S to send, Esc to cancel" }, .none)
  | .key k =>
    let m := { m with copyNotify := "", err := none }
    match m.state with
    | .searching => handleSearchInput m k
    | .sendMode => handleSendMode env m k
    | .sending => (m, .none)
    | .savingEvent => handleSavingEvent env m k
    | .loadingEvent => handleLoadingEvent env m k
    | .consumerMode => handleConsumerMode env m k
    | _ =>
      if k = "q" ∨ k = "ctrl+c" then (m, .quit)
      else if k = "/" then
        ({ m with state := .searching, searchFocused := true }, .blink)
      else if k = "tab" then
        (if m.focusedPane = .listPane then { m with focusedPane := .viewerPane }
         else { m with focusedPane := .listPane }, .none)
      else if k = "y" then
        (if m.currentSchema ≠ "" then
          match env.clipboardErr with
          | some e => { m with err := some ("failed to copy: " ++ e) }
          | none => { m with copyNotify := "Copied to clipboard!" }
         else m, .none)
      else if k = "e" ∨ k = "s" then
        if m.state = .viewing ∧ m.currentSchema ≠ "" then enterSendMode m
        else (m, .none)
      else if k = "E" then
        if m.state = .viewing ∧ m.currentSchema ≠ "" then
          ({ m with state := .sendMode, statusMsg := "Opening external editor..." },
            .openExternalEditor)
        else (m, .none)
      else if k = "c" then
        if m.state = .viewing ∧ m.currentSchema ≠ "" then enterConsumerMode env m
        else (m, .none)
      else if m.focusedPane = .listPane then handleListNavigation m k
      else handleViewerNavigation m k

/-- `ui.NewModel` (zero values for the component state; the empty raw
schema text is embedded as `Json.null`, unused until a schema loads). -/
def newModel (cfgBootstrap cfgSecurityProtocol : String) : Model :=
  { subjects := [], filteredSubjects := [], selectedIndex := 0
    selectedSubject := "", currentSchema := "", rawSchema := .null
    schemaID := 0, searchValue := "", searchFocused := false
    keyValue := "", keyFocused := false, viewerContent := ""
    editorValue := "", editorFocused := false, focusedPane := .listPane
    state := .loading, sendKeyFocused := false, width := 0, height := 0
    err := none, statusMsg := "", copyNotify := "", lastPayload := ""
    eventSaver := newEventSaver "" 0 ""
    eventLoader := { topic := "", files := [], selectedIdx := 0
                     selectedEvent := none, quit := false, err := "" }
    hasConsumer := false, consumedMessages := [], currentMsgIdx := 0
    cfgBootstrap := cfgBootstrap, cfgSecurityProtocol := cfgSecurityProtocol }

/-! ## Claims about the template generator and the wire format -/

/-- C6: For every union schema (a list of alternative types), the generated
template value is the value generated from the first alternative that is not
the string `"null"`, and is null when every alternative is `"null"`; in
particular union `["null","string"]` generates `""` (not null) and union
`["null"]` generates null. -/
theorem generateUnion_first_non_null :
    (∀ ts : List Json,
      generateUnion ts =
        match ts.find? (fun t => decide (t ≠ Json.str "null")) with
        | none => .ok .null
        | some t => generateValue t) ∧
    generateUnion [Json.str "null", Json.str "string"] = .ok (.str "") ∧
    generateUnion [Json.str "null"] = .ok .null := by
  refine ⟨?_, ?_, ?_⟩
  · intro ts
    induction ts with
    | nil => simp [generateUnion, List.find?]
    | cons t rest ih =>
      by_cases h : t = Json.str "null"
      · subst h
        rw [generateUnion]
        simpa [List.find?] using ih
      · rw [generateUnion]
        simp [List.find?, h]
  · simp [generateUnion, generateValue, generatePrimitive]
  · simp [generateUnion]

/-- A record schema declaring an inline record `Foo` for field `a` and then
referencing it by name as the type of field `b`. -/
def fooRecord : Json := .obj [("type", .str "record"), ("name", .str "Foo"),
  ("fields", .arr [.obj [("name", .str "x"), ("type", .str "int")]])]

def refSchema : Json := .obj [("type", .str "record"), ("name", .str "R"),
  ("fields", .arr [
    .obj [("name", .str "a"), ("type", fooRecord)],
    .obj [("name", .str "b"), ("type", .str "Foo")]])]

/-- C5 counterexample: the generator does not substitute the resolved
definition for a named-type reference.  In `refSchema`, field `a` carries
the definition of `Foo` inline and generates `{"x": 0}`, while field `b`
references `Foo` by name and generates the placeholder `""` — not the value
generated for the resolved definition. -/
theorem named_reference_unresolved_cex :
    generateTemplate refSchema =
      .ok (.obj [("a", .obj [("x", .num 0)]), ("b", .str "")]) ∧
    generateValue (.str "Foo") = .ok (.str "") ∧
    generateValue fooRecord = .ok (.obj [("x", .num 0)]) ∧
    Json.str "" ≠ Json.obj [("x", .num 0)] := by
  refine ⟨?_, ?_, ?_, ?_⟩
  · have h1 : generateValueF 1000000 refSchema =
        some (.ok (.obj [("a", .obj [("x", .num 0)]), ("b", .str "")])) := rfl
    have h2 : marshalJsonF 1000000 (.obj [("a", .obj [("x", .num 0)]), ("b", .str "")]) =
        some (.obj [("a", .obj [("x", .num 0)]), ("b", .str "")]) := rfl
    exact generateTemplate_eval 1000000 (by decide) h1 (by decide) h2
  · exact generateValue_eval 1000000 (by decide) rfl
  · exact generateValue_eval 1000000 (by decide) rfl
  · exact fun hcon => Json.noConfusion hcon

/-- C5 amended: a type name that is not one of the primitive names is not
resolved; the generator emits the empty-string placeholder `""` for it. -/
theorem named_reference_placeholder (t : String)
    (h : t ∉ (["null", "boolean", "int", "long", "float", "double", "bytes",
      "string"] : List String)) :
    generateValue (.str t) = .ok (.str "") ∧
    generatePrimitive t = .ok (.str "") := by
  simp only [List.mem_cons, List.not_mem_nil, or_false, not_or] at h
  obtain ⟨h1, h2, h3, h4, h5, h6, h7, h8⟩ := h
  have hp : generatePrimitive t = .ok (.str "") := by
    unfold generatePrimitive
    split <;> simp_all
  exact ⟨by rw [generateValue]; exact hp, hp⟩

theorem named_reference_placeholder_witness :
    generateValue (.str "Foo") = .ok (.str "") ∧
    generatePrimitive "Foo" = .ok (.str "") :=
  named_reference_placeholder "Foo" (by simp)

/-- The record rule as the spec states it (§4.1): for each declared field in
declaration order, the declared default verbatim when present, otherwise the
value generated recursively from the field's type (fields without a usable
name/type are skipped, as the code does).  This is the refinement reference
for C4. -/
def specRecordFields : List Json → Except String (List (String × Json))
  | [] => .ok []
  | f :: rest =>
    match f with
    | .obj fkvs =>
      match lookupJ fkvs "name" with
      | some (.str name) =>
        match lookupJ fkvs "type" with
        | some fieldType =>
          match lookupJ fkvs "default" with
          | some d =>
            match specRecordFields rest with
            | .ok tail => .ok ((name, d) :: tail)
            | .error e => .error e
          | none =>
            match generateValue fieldType with
            | .ok v =>
              match specRecordFields rest with
              | .ok tail => .ok ((name, v) :: tail)
              | .error e => .error e
            | .error e => .error e
        | none => specRecordFields rest
      | _ => specRecordFields rest
    | _ => specRecordFields rest

/-- The names of the declared fields that carry a usable name and type, in
declaration order. -/
def fieldNames : List Json → List String
  | [] => []
  | f :: rest =>
    match f with
    | .obj fkvs =>
      match lookupJ fkvs "name" with
      | some (.str name) =>
        match lookupJ fkvs "type" with
        | some _ => name :: fieldNames rest
        | none => fieldNames rest
      | _ => fieldNames rest
    | _ => fieldNames rest

theorem spec_names : ∀ {fields : List Json} {res : List (String × Json)},
    specRecordFields fields = .ok res → res.map Prod.fst = fieldNames fields := by
  intro fields
  induction fields with
  | nil => intro res h; simp [specRecordFields] at h; subst h; simp [fieldNames]
  | cons f rest ih =>
    intro res h
    cases f with
    | obj fkvs =>
      cases hn : lookupJ fkvs "name" with
      | none =>
        rw [specRecordFields, hn] at h
        simpa [fieldNames, hn] using ih h
      | some nv =>
        cases nv with
        | str name =>
          cases hty : lookupJ fkvs "type" with
          | none =>
            rw [specRecordFields, hn, hty] at h
            simpa [fieldNames, hn, hty] using ih h
          | some ft =>
            cases hd : lookupJ fkvs "default" with
            | some d =>
              rw [specRecordFields, hn, hty, hd] at h
              cases hrest : specRecordFields rest with
              | ok tail =>
                rw [hrest] at h
                injection h with h
                subst h
                simp [fieldNames, hn, hty, ih hrest]
              | error e => rw [hrest] at h; exact Except.noConfusion h
            | none =>
              rw [specRecordFields] at h
              simp only [hn, hty, hd] at h
              cases hgv : generateValue ft with
              | ok v =>
                rw [hgv] at h
                cases hrest : specRecordFields rest with
                | ok tail =>
                  rw [hrest] at h
                  injection h with h
                  subst h
                  simp [fieldNames, hn, hty, ih hrest]
                | error e => rw [hrest] at h; exact Except.noConfusion h
              | error e => rw [hgv] at h; exact Except.noConfusion h
        | null => rw [specRecordFields, hn] at h; simpa [fieldNames, hn] using ih h
        | bool b => rw [specRecordFields, hn] at h; simpa [fieldNames, hn] using ih h
        | num q => rw [specRecordFields, hn] at h; simpa [fieldNames, hn] using ih h
        | arr xs => rw [specRecordFields, hn] at h; simpa [fieldNames, hn] using ih h
        | obj o => rw [specRecordFields, hn] at h; simpa [fieldNames, hn] using ih h
    | null => simp only [specRecordFields] at h; simpa [fieldNames] using ih h
    | bool b => simp only [specRecordFields] at h; simpa [fieldNames] using ih h
    | num q => simp only [specRecordFields] at h; simpa [fieldNames] using ih h
    | str s => simp only [specRecordFields] at h; simpa [fieldNames] using ih h
    | arr xs => simp only [specRecordFields] at h; simpa [fieldNames] using ih h

theorem mapInsert_append : ∀ {acc : List (String × Json)} {n : String} {v : Json},
    n ∉ acc.map Prod.fst → mapInsert acc n v = acc ++ [(n, v)] := by
  intro acc
  induction acc with
  | nil => intro n v _; rfl
  | cons p rest ih =>
    intro n v h
    obtain ⟨k, w⟩ := p
    simp only [List.map_cons, List.mem_cons, not_or] at h
    obtain ⟨h1, h2⟩ := h
    rw [mapInsert, if_neg (fun hk => h1 hk.symm), ih h2]
    rfl

/-- The Go field loop refines the spec's record rule: with distinct field
names, the in-memory result is the spec's field list appended after the
accumulator (declaration order, default verbatim else generated). -/
theorem genFields_spec : ∀ {fields : List Json} {res acc : List (String × Json)},
    specRecordFields fields = .ok res →
    (fieldNames fields).Nodup →
    (∀ n ∈ fieldNames fields, n ∉ acc.map Prod.fst) →
    genFields fields acc = .ok (acc ++ res) := by
  intro fields
  induction fields with
  | nil =>
    intro res acc h _ _
    rw [specRecordFields] at h
    injection h with h
    subst h
    simp [genFields]
  | cons f rest ih =>
    intro res acc h hnodup hfresh
    cases f with
    | obj fkvs =>
      cases hn : lookupJ fkvs "name" with
      | none =>
        rw [specRecordFields, hn] at h
        rw [genFields_cons_no_name (by simp [hn])]
        exact ih h (by simpa [fieldNames, hn] using hnodup)
          (by simpa [fieldNames, hn] using hfresh)
      | some nv =>
        cases nv with
        | str name =>
          cases hty : lookupJ fkvs "type" with
          | none =>
            rw [specRecordFields, hn, hty] at h
            rw [genFields_cons_no_type hn hty]
            exact ih h (by simpa [fieldNames, hn, hty] using hnodup)
              (by simpa [fieldNames, hn, hty] using hfresh)
          | some ft =>
            have hnames : fieldNames (Json.obj fkvs :: rest) = name :: fieldNames rest := by
              simp [fieldNames, hn, hty]
            rw [hnames] at hnodup hfresh
            have hfreshname : name ∉ acc.map Prod.fst := hfresh name (by simp)
            have hnodup2 : (fieldNames rest).Nodup := (List.nodup_cons.mp hnodup).2
            have hnotin : name ∉ fieldNames rest := (List.nodup_cons.mp hnodup).1
            have hfresh2 : ∀ d2 : Json, ∀ n ∈ fieldNames rest,
                n ∉ (acc ++ [(name, d2)]).map Prod.fst := by
              intro d2 n hnmem hmem
              rw [List.map_append] at hmem
              rcases List.mem_append.mp hmem with hin | hin
              · exact hfresh n (List.mem_cons_of_mem _ hnmem) hin
              · simp at hin
                exact hnotin (hin ▸ hnmem)
            cases hd : lookupJ fkvs "default" with
            | some d =>
              rw [specRecordFields, hn, hty, hd] at h
              cases hrest : specRecordFields rest with
              | error e => rw [hrest] at h; exact Except.noConfusion h
              | ok tail =>
                rw [hrest] at h
                injection h with h
                subst h
                rw [genFields_cons_default hn hty hd, mapInsert_append hfreshname,
                  ih hrest hnodup2 (hfresh2 d)]
                simp
            | none =>
              rw [specRecordFields] at h
              simp only [hn, hty, hd] at h
              cases hgv : generateValue ft with
              | error e => rw [hgv] at h; exact Except.noConfusion h
              | ok v =>
                rw [hgv] at h
                cases hrest : specRecordFields rest with
                | error e => rw [hrest] at h; exact Except.noConfusion h
                | ok tail =>
                  rw [hrest] at h
                  injection h with h
                  subst h
                  have hstep : genFields (Json.obj fkvs :: rest) acc =
                      genFields rest (mapInsert acc name v) := by
                    rw [genFields_cons_gen hn hty hd, hgv]
                  rw [hstep, mapInsert_append hfreshname,
                    ih hrest hnodup2 (hfresh2 v)]
                  simp
        | null =>
          rw [specRecordFields, hn] at h
          rw [genFields_cons_no_name (by simp [hn])]
          exact ih h (by simpa [fieldNames, hn] using hnodup)
            (by simpa [fieldNames, hn] using hfresh)
        | bool b =>
          rw [specRecordFields, hn] at h
          rw [genFields_cons_no_name (by simp [hn])]
          exact ih h (by simpa [fieldNames, hn] using hnodup)
            (by simpa [fieldNames, hn] using hfresh)
        | num q =>
          rw [specRecordFields, hn] at h
          rw [genFields_cons_no_name (by simp [hn])]
          exact ih h (by simpa [fieldNames, hn] using hnodup)
            (by simpa [fieldNames, hn] using hfresh)
        | arr xs =>
          rw [specRecordFields, hn] at h
          rw [genFields_cons_no_name (by simp [hn])]
          exact ih h (by simpa [fieldNames, hn] using hnodup)
            (by simpa [fieldNames, hn] using hfresh)
        | obj o =>
          rw [specRecordFields, hn] at h
          rw [genFields_cons_no_name (by simp [hn])]
          exact ih h (by simpa [fieldNames, hn] using hnodup)
            (by simpa [fieldNames, hn] using hfresh)
    | null =>
      simp only [specRecordFields] at h
      rw [genFields.eq_3 _ _ _ (fun _ hcon => Json.noConfusion hcon)]
      exact ih h (by simpa [fieldNames] using hnodup) (by simpa [fieldNames] using hfresh)
    | bool b =>
      simp only [specRecordFields] at h
      rw [genFields.eq_3 _ _ _ (fun _ hcon => Json.noConfusion hcon)]
      exact ih h (by simpa [fieldNames] using hnodup) (by simpa [fieldNames] using hfresh)
    | num q =>
      simp only [specRecordFields] at h
      rw [genFields.eq_3 _ _ _ (fun _ hcon => Json.noConfusion hcon)]
      exact ih h (by simpa [fieldNames] using hnodup) (by simpa [fieldNames] using hfresh)
    | str s =>
      simp only [specRecordFields] at h
      rw [genFields.eq_3 _ _ _ (fun _ hcon => Json.noConfusion hcon)]
      exact ih h (by simpa [fieldNames] using hnodup) (by simpa [fieldNames] using hfresh)
    | arr xs =>
      simp only [specRecordFields] at h
      rw [genFields.eq_3 _ _ _ (fun _ hcon => Json.noConfusion hcon)]
      exact ih h (by simpa [fieldNames] using hnodup) (by simpa [fieldNames] using hfresh)

theorem marshalObj_map_fst : ∀ l : List (String × Json),
    (marshalObj l).map Prod.fst = l.map Prod.fst := by
  intro l
  induction l with
  | nil => rw [marshalObj]
  | cons p rest ih =>
    obtain ⟨k, v⟩ := p
    rw [marshalObj]
    simpa using ih

theorem insertByKey_map_fst (p : String × Json) : ∀ l : List (String × Json),
    (insertByKey p l).map Prod.fst = insertString p.1 (l.map Prod.fst) := by
  intro l
  induction l with
  | nil => rfl
  | cons q rest ih =>
    by_cases hlt : strLtB p.1 q.1 <;>
      simp [insertByKey, insertString, hlt, ih]

theorem sortByKey_map_fst : ∀ l : List (String × Json),
    (sortByKey l).map Prod.fst = sortStrings (l.map Prod.fst) := by
  intro l
  induction l with
  | nil => rfl
  | cons p rest ih =>
    rw [sortByKey, sortStrings.eq_def]
    simp only [List.map_cons]
    rw [insertByKey_map_fst, ih]

/-- C4 (amended): for a record schema with well-formed, distinctly named
fields, the generator produces — in declaration order — the declared
default verbatim when present and the recursively generated value
otherwise (the spec's record rule, `specRecordFields`); but the marshalled
template document holds the field names in Go's sorted map-key order, not
declaration order. -/
theorem generateRecord_spec_refinement (kvs : List (String × Json))
    (fields : List Json) (res : List (String × Json))
    (htype : lookupJ kvs "type" = some (.str "record"))
    (hfields : lookupJ kvs "fields" = some (.arr fields))
    (hnodup : (fieldNames fields).Nodup)
    (hspec : specRecordFields fields = .ok res) :
    generateValue (.obj kvs) = .ok (.obj res) ∧
    res.map Prod.fst = fieldNames fields ∧
    generateTemplate (.obj kvs) = .ok (.obj (sortByKey (marshalObj res))) ∧
    (sortByKey (marshalObj res)).map Prod.fst = sortStrings (res.map Prod.fst) := by
  have hgen0 : genFields fields [] = .ok ([] ++ res) :=
    genFields_spec hspec hnodup (fun n _ => by simp)
  have hgen : genFields fields [] = .ok res := by simpa using hgen0
  have h1 : generateValue (.obj kvs) = .ok (.obj res) := by
    rw [generateValue_obj, generateComplex]
    simp [htype, generateRecord_fields hfields, hgen, except_map_ok]
  refine ⟨h1, spec_names hspec, ?_, ?_⟩
  · rw [generateTemplate, h1, except_map_ok, marshalJson]
  · rw [sortByKey_map_fst, marshalObj_map_fst]

def fieldsW : List Json := [
  .obj [("name", .str "b"), ("type", .str "int"), ("default", .num 7)],
  .obj [("name", .str "a"), ("type", .str "string")]]

def kvsW : List (String × Json) := [("type", .str "record"),
  ("name", .str "W"), ("fields", .arr fieldsW)]

def resW : List (String × Json) := [("b", .num 7), ("a", .str "")]

theorem generateRecord_spec_refinement_witness :
    generateValue (.obj kvsW) = .ok (.obj resW) ∧
    resW.map Prod.fst = fieldNames fieldsW ∧
    generateTemplate (.obj kvsW) = .ok (.obj (sortByKey (marshalObj resW))) ∧
    (sortByKey (marshalObj resW)).map Prod.fst = sortStrings (resW.map Prod.fst) := by
  have hv : generateValue (Json.str "string") = .ok (.str "") :=
    generateValue_eval 1000000 (by decide) rfl
  have hspec : specRecordFields fieldsW = .ok resW := by
    simp [fieldsW, resW, specRecordFields, lookupJ, hv]
  exact generateRecord_spec_refinement kvsW fieldsW resW rfl rfl (by decide) hspec

/-- A record schema declaring field `"b"` before field `"a"`. -/
def rec4 : Json := .obj [("type", .str "record"), ("name", .str "R"),
  ("fields", .arr [
    .obj [("name", .str "b"), ("type", .str "int")],
    .obj [("name", .str "a"), ("type", .str "string")]])]

/-- C4 counterexample: the declared field order of `rec4` is `["b","a"]`,
but the generated template document carries its keys in sorted order
`["a","b"]` — Go marshals the record map with sorted keys, so the claim's
"keys are the field names in the schema's declaration order" fails. -/
theorem record_template_key_order_cex :
    fieldNames [
      Json.obj [("name", .str "b"), ("type", .str "int")],
      Json.obj [("name", .str "a"), ("type", .str "string")]] = ["b", "a"] ∧
    generateTemplate rec4 = .ok (.obj [("a", .str ""), ("b", .num 0)]) ∧
    [("a", Json.str ""), ("b", Json.num 0)].map Prod.fst = ["a", "b"] ∧
    (["a", "b"] : List String) ≠ ["b", "a"] := by
  refine ⟨rfl, ?_, rfl, by decide⟩
  have h1 : generateValueF 1000000 rec4 =
      some (.ok (.obj [("b", .num 0), ("a", .str "")])) := rfl
  have h2 : marshalJsonF 1000000 (.obj [("b", .num 0), ("a", .str "")]) =
      some (.obj [("a", .str ""), ("b", .num 0)]) := rfl
  exact generateTemplate_eval 1000000 (by decide) h1 (by decide) h2

/-- A record whose single field references the record's own name through a
union — the cyclic self-reference shape of §3. -/
def recCyc : Json := .obj [("type", .str "record"), ("name", .str "Node"),
  ("fields", .arr [
    .obj [("name", .str "next"), ("type", .arr [.str "null", .str "Node"])]])]

/-- C9: template generation terminates on every input schema: the
fuel-indexed execution completes (returns `some`, never exhausting fuel)
whenever the budget exceeds four times the schema size, and its result is
the total function's — a document or an error after finitely many steps.
This covers cyclic self-references such as `recCyc`, since the generator
never resolves a type name. -/
theorem generator_terminates_with_fuel (s : Json) (fuel : Nat)
    (h : 4 * sizeOf s + 3 < fuel) :
    generateValueF fuel s = some (generateValue s) ∧
    generateTemplate s = (generateValue s).map marshalJson :=
  ⟨(generateF_adequate fuel).1 s h, rfl⟩

theorem generator_terminates_with_fuel_witness :
    generateValueF (4 * sizeOf recCyc + 4) recCyc = some (generateValue recCyc) ∧
    generateTemplate recCyc = (generateValue recCyc).map marshalJson :=
  generator_terminates_with_fuel recCyc (4 * sizeOf recCyc + 4) (by omega)

/-- C2: For every schema id `n` (in unsigned 32-bit range) and payload `p`,
the transmitted value is exactly the 5-byte header followed by `p`: byte 0
is `0x00`, bytes 1–4 are `n` big-endian (their big-endian recombination is
`n`), and the payload follows unchanged. -/
theorem produce_wire_envelope (topic : String) (n : Int) (key : Option (List Nat))
    (p : List Nat) (h0 : 0 ≤ n) (h1 : n < 2 ^ 32) :
    (produce topic n key p).value =
      0x00 :: [n.toNat / 16777216 % 256, n.toNat / 65536 % 256,
        n.toNat / 256 % 256, n.toNat % 256] ++ p ∧
    n.toNat / 16777216 % 256 * 16777216 + n.toNat / 65536 % 256 * 65536 +
      n.toNat / 256 % 256 * 256 + n.toNat % 256 = n.toNat := by
  have hm : uint32ofInt n = n.toNat := by
    unfold uint32ofInt
    rw [Int.emod_eq_of_lt h0 h1]
  constructor
  · simp [produce, putUint32BE, hm, Nat.shiftRight_eq_div_pow]
  · have hlt : n.toNat < 4294967296 := by omega
    omega

theorem produce_wire_envelope_witness :
    (produce "orders" 5 none [1, 2, 3]).value =
      [0x00, 0x00, 0x00, 0x00, 0x05, 1, 2, 3] := by
  have h := produce_wire_envelope "orders" 5 none [1, 2, 3] (by norm_num) (by norm_num)
  rw [h.1]
  decide

/-- C10: publishing with a string key attaches the key iff the key string is
non-empty — an empty string leaves the message without a key (nil), not with
an empty key — and the wire-enveloped value is the same in both cases. -/
theorem string_key_attached_iff_nonempty (topic : String) (n : Int) (key : String)
    (v : List Nat) :
    ((produceWithStringKey topic n key v).key = none ↔ key = "") ∧
    (produceWithStringKey topic n key v).key =
      (if key = "" then none else some (strBytes key)) ∧
    (produceWithStringKey topic n key v).value = (produce topic n none v).value := by
  by_cases h : key = "" <;> simp [produceWithStringKey, produce, h]

/-! ## Claims about the workflow engine -/

/-- A collaborator environment with inert collaborators. -/
def envNil : Env :=
  { clipboardErr := none
    reader := fun _ => .deadline
    newConsumerErr := none
    listEventsRes := .ok []
    loadEventRes := fun _ => .error "missing"
    saveEventRes := .ok "saved.json" }

def schemaA : Json := .obj [("type", .str "record"), ("name", .str "A"),
  ("fields", .arr [])]

def schemaB : Json := .obj [("type", .str "string")]

def respA : SchemaResponse :=
  { subject := "subjA", version := 1, id := 7, schemaType := "AVRO", schema := schemaA }

/-- C1 (amended): a successful schema completion is applied unconditionally —
the engine performs no subject check — so the Schema Context always reflects
the most recently delivered completion; subject `B`'s result stands only if
`B`'s completion is delivered after `A`'s. -/
theorem schemaLoaded_last_writer_wins (env : Env) (m : Model) (rA rB : SchemaResponse) :
    (update env m (.schemaLoaded (.ok rA))).1.rawSchema = rA.schema ∧
    (update env m (.schemaLoaded (.ok rA))).1.schemaID = rA.id ∧
    (update env m (.schemaLoaded (.ok rA))).1.statusMsg =
      "[VIEW] " ++ rA.subject ++ " (v" ++ toString rA.version ++ ")" ∧
    (update env (update env m (.schemaLoaded (.ok rA))).1
        (.schemaLoaded (.ok rB))).1.rawSchema = rB.schema ∧
    (update env (update env m (.schemaLoaded (.ok rA))).1
        (.schemaLoaded (.ok rB))).1.schemaID = rB.id ∧
    (update env (update env m (.schemaLoaded (.ok rA))).1
        (.schemaLoaded (.ok rB))).1.currentSchema = prettyPrintSchema rB.schema :=
  ⟨rfl, rfl, rfl, rfl, rfl, rfl⟩

def c1m0 : Model :=
  (update envNil (newModel "broker:9092" "PLAINTEXT")
    (.subjectsLoaded (.ok ["subjA", "subjB"]))).1

def c1m1 : Model := (update envNil c1m0 (.key "enter")).1

def c1m2 : Model := (update envNil c1m1 (.key "down")).1

def c1m3 : Model := (update envNil c1m2 (.key "enter")).1

def c1m4 : Model := (update envNil c1m3 (.schemaLoaded (.ok respA))).1

/-- C1 counterexample: with a fetch for `subjA` outstanding, the user
selects `subjB` (a second fetch is issued); when `subjA`'s completion then
arrives, the engine applies it rather than discarding it — the Schema
Context holds `subjA`'s schema and id while `selectedSubject` is `subjB`. -/
theorem stale_completion_applied_cex :
    (update envNil c1m0 (.key "enter")).2 = .loadSchema "subjA" ∧
    (update envNil c1m2 (.key "enter")).2 = .loadSchema "subjB" ∧
    c1m3.selectedSubject = "subjB" ∧
    c1m4.selectedSubject = "subjB" ∧
    c1m4.rawSchema = schemaA ∧
    c1m4.schemaID = 7 ∧
    c1m4.statusMsg = "[VIEW] subjA (v1)" ∧
    schemaA ≠ schemaB := by
  refine ⟨rfl, rfl, rfl, rfl, rfl, rfl, rfl, ?_⟩
  simp [schemaA, schemaB]

/-- C3 (amended): entering Send-draft through the `e`/`s` binding always
regenerates the draft from the Schema Template Generator on the current
schema and clears the key field; the `E` (external editor) entry and the
save/load/publish-failure returns instead keep the existing buffer. -/
theorem enterSendMode_regenerates_template (env : Env) (m : Model) (k : String)
    (tpl : String)
    (hstate : m.state = .viewing)
    (hschema : m.currentSchema ≠ "")
    (hk : k = "e" ∨ k = "s")
    (htpl : generateTemplateText m.rawSchema = .ok tpl) :
    (update env m (.key k)).1.editorValue = tpl ∧
    (update env m (.key k)).1.state = .sendMode ∧
    (update env m (.key k)).1.keyValue = "" ∧
    (update env m (.key k)).1.sendKeyFocused = false ∧
    (update env m (.key k)).2 = .blink := by
  have hstep : update env m (.key k) =
      enterSendMode { m with copyNotify := "", err := none } := by
    rcases hk with hk | hk <;> subst hk <;> simp [update, hstate, hschema]
  rw [hstep]
  simp [enterSendMode, htpl]

def c3w : Model := { newModel "" "" with
  state := .viewing, currentSchema := "x",
  rawSchema := schemaA, selectedSubject := "subjA" }

theorem enterSendMode_regenerates_template_witness :
    c3w.state = .viewing ∧ c3w.currentSchema ≠ "" ∧
    generateTemplateText c3w.rawSchema = .ok "\x7b\x7d" ∧
    (update envNil c3w (.key "e")).1.editorValue = "\x7b\x7d" ∧
    (update envNil c3w (.key "e")).1.state = .sendMode ∧
    (update envNil c3w (.key "e")).1.keyValue = "" := by
  have htpl : generateTemplateText c3w.rawSchema = .ok "\x7b\x7d" :=
    generateTemplateText_eval 1000000 (by decide) rfl (by decide) rfl (by decide) rfl
  have h := enterSendMode_regenerates_template envNil c3w "e" "\x7b\x7d" rfl
    (by decide) (Or.inl rfl) htpl
  exact ⟨rfl, by decide, htpl, h.1, h.2.1, h.2.2.1⟩

def c3m : Model := { newModel "" "" with
  state := .viewing, currentSchema := "x",
  rawSchema := schemaA, editorValue := "old draft from subject A",
  selectedSubject := "subjB" }

/-- C3 counterexample: pressing `E` in Viewing switches into Send-draft mode
without regenerating the draft — the buffer still holds the previous
draft, which is not the template freshly generated from the current
schema. -/
theorem external_editor_entry_keeps_stale_draft_cex :
    (update envNil c3m (.key "E")).1.state = .sendMode ∧
    (update envNil c3m (.key "E")).1.editorValue = "old draft from subject A" ∧
    (update envNil c3m (.key "E")).2 = .openExternalEditor ∧
    generateTemplateText c3m.rawSchema = .ok "\x7b\x7d" ∧
    ("old draft from subject A" : String) ≠ "\x7b\x7d" := by
  refine ⟨rfl, rfl, rfl, ?_, by decide⟩
  exact generateTemplateText_eval 1000000 (by decide) rfl (by decide) rfl (by decide) rfl

/-- C7 (amended): while in Sending mode every key press leaves the model
unchanged except for resetting the transient `copyNotify`/`err` indicators
(cleared on every key event), and returns no command; the
publish-completion outcome moves to Viewing on success and back to
Send-draft on failure with every other field — in particular the draft
buffer — retained. -/
theorem sending_mode_transitions (env : Env) (m : Model) (k topic e : String)
    (hstate : m.state = .sending) :
    update env m (.key k) = ({ m with copyNotify := "", err := none }, .none) ∧
    update env m (.messageSent topic (some e)) =
      ({ m with
          err := some e, state := .sendMode,
          statusMsg := "[SEND MODE] Failed - press Ctrl+S to retry" }, .none) ∧
    update env m (.messageSent topic none) =
      ({ m with
          state := .viewing, editorFocused := false,
          statusMsg := "SUCCESS: Message produced to topic \x27" ++ topic ++ "\x27",
          copyNotify := "Message produced to \x27" ++ topic ++ "\x27!" }, .none) := by
  refine ⟨?_, rfl, rfl⟩
  simp [update, hstate]

def c7w : Model := { newModel "" "" with
  state := .sending,
  editorValue := "draft body", lastPayload := "draft body" }

theorem sending_mode_transitions_witness :
    update envNil c7w (.key "x") = ({ c7w with copyNotify := "", err := none }, .none) ∧
    update envNil c7w (.messageSent "orders" (some "broker down")) =
      ({ c7w with
          err := some "broker down", state := .sendMode,
          statusMsg := "[SEND MODE] Failed - press Ctrl+S to retry" }, .none) ∧
    update envNil c7w (.messageSent "orders" none) =
      ({ c7w with
          state := .viewing, editorFocused := false,
          statusMsg := "SUCCESS: Message produced to topic \x27" ++ "orders" ++ "\x27",
          copyNotify := "Message produced to \x27" ++ "orders" ++ "\x27!" }, .none) :=
  sending_mode_transitions envNil c7w "x" "orders" "broker down" rfl

def c7m : Model := { newModel "" "" with
  state := .sending,
  err := some "schema fetch failed: connection refused" }

/-- C7 counterexample: a key press in Sending mode does not leave every
field identical — it clears the transient error indicator.  `c7m` is in
Sending mode with an error present (reachable: a stale schema fetch can
fail while a publish is in flight, and the completion handler records the
error without changing the mode); pressing any key changes the model. -/
theorem sending_key_clears_error_cex :
    c7m.state = .sending ∧
    c7m.err = some "schema fetch failed: connection refused" ∧
    (update envNil c7m (.key "x")).1.err = none ∧
    (update envNil c7m (.key "x")).1 ≠ c7m := by
  refine ⟨rfl, rfl, rfl, ?_⟩
  intro hcon
  have herr : (none : Option String) = some "schema fetch failed: connection refused" := by
    calc (none : Option String) = (update envNil c7m (.key "x")).1.err := rfl
    _ = c7m.err := congrArg Model.err hcon
    _ = some "schema fetch failed: connection refused" := rfl
  exact Option.noConfusion herr

/-- C8: a consume fetch of batch size 10 against a topic holding fewer
(but at least one) available messages returns exactly the available
messages as a success — the short batch is not an error — and the partial
set replaces the consumed-message buffer, resetting the cursor, with the
engine remaining in Consuming mode and no error recorded. -/
theorem consume_short_batch_success (env : Env) (m : Model) (avail : List KMsg)
    (hreader : env.reader = mkReader avail)
    (hne : avail ≠ []) (hlen : avail.length < 10)
    (hstate : m.state = .consumerMode) :
    fetchMessages env.reader 10 = .ok avail ∧
    (update env m (.key "ctrl+m")).1.consumedMessages = avail ∧
    (update env m (.key "ctrl+m")).1.currentMsgIdx = 0 ∧
    (update env m (.key "ctrl+m")).1.state = .consumerMode ∧
    (update env m (.key "ctrl+m")).1.err = none ∧
    (update env m (.key "ctrl+m")).2 = .none := by
  have hf : fetchMessages env.reader 10 = .ok avail := by
    rw [hreader]
    exact fetchMessages_short_batch avail 10 hlen
  have hemp : avail.isEmpty = false := by
    cases avail with
    | nil => exact absurd rfl hne
    | cons a l => rfl
  refine ⟨hf, ?_, ?_, ?_, ?_, ?_⟩ <;>
    simp [update, hstate, handleConsumerMode, hf, hemp]

def availW : List KMsg := [
  { key := "k1", value := "v1", offset := 0, timestamp := 0 },
  { key := "k2", value := "v2", offset := 1, timestamp := 0 },
  { key := "k3", value := "v3", offset := 2, timestamp := 0 }]

def envW : Env := { envNil with reader := mkReader availW }

def c8m : Model := { newModel "broker:9092" "PLAINTEXT" with
  state := .consumerMode, hasConsumer := true, selectedSubject := "orders-value" }

theorem consume_short_batch_success_witness :
    fetchMessages envW.reader 10 = .ok availW ∧
    (update envW c8m (.key "ctrl+m")).1.consumedMessages = availW ∧
    (update envW c8m (.key "ctrl+m")).1.currentMsgIdx = 0 ∧
    (update envW c8m (.key "ctrl+m")).1.state = .consumerMode ∧
    (update envW c8m (.key "ctrl+m")).1.err = none ∧
    (update envW c8m (.key "ctrl+m")).2 = .none :=
  consume_short_batch_success envW c8m availW rfl (by decide) (by decide) rfl

end Avrocado
